import Mathlib

/-!
# Verification of the fashion crawler core

Shallow embedding of the crawler's core logic
(`crawler/processors.py`, `crawler/items.py`, `crawler/item_exporters.py`,
`crawler/spiders/nordstrom.py`, `crawler/spiders/asos.py`) together with
proofs of the behavioural properties stated in the design document.

Python strings are modelled as Lean `String`; Python lists as Lean `List`;
a Python call that raises is modelled with `Except PyError`.
-/

namespace Crawler

/-- Exceptions raised by the embedded Python code: `values[i]` on a list that
is too short raises `IndexError`; referencing an unbound name raises
`NameError`. -/
inductive PyError where
  | indexError (idx : Nat)
  | nameError (nm : String)
deriving DecidableEq, Repr

/-- ASCII lowering of one character, the effect of Python `str.lower()` on the
ASCII range (the only range the "sale"/"home" probes can match). -/
def lowerChar (c : Char) : Char := c.toLower

/-- `pyLower s` embeds Python `s.lower()` (ASCII fragment). -/
def pyLower (s : String) : String := String.mk (s.data.map lowerChar)

/-- `prefixOfCL pat cs`: the character list `pat` is an initial segment of
`cs`. -/
def prefixOfCL : List Char → List Char → Bool
  | [], _ => true
  | _ :: _, [] => false
  | a :: as, b :: bs => a == b && prefixOfCL as bs

/-- `occursIn pat cs`: `pat` occurs contiguously inside `cs`; embeds the
Python substring test `pat in s`. -/
def occursIn (pat : List Char) : List Char → Bool
  | [] => prefixOfCL pat []
  | c :: cs => prefixOfCL pat (c :: cs) || occursIn pat cs

/-- Python `needle in hay` for strings. -/
def pyIn (needle hay : String) : Bool := occursIn needle.data hay.data

/-- `"sale" in v.lower()` from `RemoveSaleHome.__call__`. -/
def hasSale (v : String) : Bool := pyIn "sale" (pyLower v)

/-- `"home" in v.lower()` from `RemoveSaleHome.__call__`. -/
def hasHome (v : String) : Bool := pyIn "home" (pyLower v)

/-- Embedding of `RemoveSaleHome.__call__` (`crawler/processors.py`):

```python
if "sale" in values[1].lower():
    values.pop(1)
if "home" in values[0].lower():
    values.pop(0)
return values
```

The first statement reads `values[1]`, so any list with fewer than two
elements raises `IndexError` (modelled as `.error (.indexError 1)`).
On `v0 :: v1 :: rest`, the sale test reads index 1 (`v1`) and pops it on a
hit; the home test then reads index 0, which is `v0` whether or not the pop
happened, and pops it on a hit. -/
def removeSaleHome (values : List String) : Except PyError (List String) :=
  match values with
  | v0 :: v1 :: rest =>
      let tail := if hasSale v1 then rest else v1 :: rest
      .ok (if hasHome v0 then tail else v0 :: tail)
  | _ => .error (.indexError 1)

/-- Embedding of the partition computation in
`JsonLinesItemSplitFileExporter.export_item` (`crawler/item_exporters.py`):

```python
if len(item['article_type']) == 1:
    path = os.path.join("scraped_data", spider.name)
    item_path = os.path.join(path, item['article_type'][0]) + ".jl"
else:
    path = os.path.join(os.path.join("scraped_data", spider.name),
                        (os.path.join(*item['article_type'][:-1])))
    item_path = os.path.join(path, item['article_type'][-1]) + ".jl"
```

A directory is a list of path components; the result is the directory
components paired with the partition file name.  `os.path.join(*[])` on an
empty `article_type` raises (`TypeError` in Python; modelled as an error). -/
def exportPartition (siteName : String) (articleType : List String) :
    Except PyError (List String × String) :=
  match articleType with
  | [] => .error (.indexError 0)
  | [a] => .ok (["scraped_data", siteName], a ++ ".jl")
  | _ =>
      .ok (["scraped_data", siteName] ++ articleType.dropLast,
           articleType.getLast! ++ ".jl")

/-- A follow-up request issued by `NordstromSpider`: either a product-page
request (carrying the `article_type` list through `request.meta`), or a grid
page request (carrying the `page` counter through `request.meta["page"]` and
the rewritten query string). -/
inductive NordRequest where
  | itemReq (url : String) (articleType : List String)
  | pageReq (page : Nat)
deriving DecidableEq, Repr

/-- Abstraction of a response arriving at `NordstromSpider.parse_article`:
the extraction results of its two selectors and the `page` value carried in
`response.meta`. -/
structure NordGridResponse where
  categoryIndicators : List String
  productTiles : List String
  page : Nat
deriving Repr

/-- Embedding of `NordstromSpider.parse` (`crawler/spiders/nordstrom.py`):
for every link found on the start page it issues one grid request whose query
is rewritten with `page = 1` and whose `request.meta["page"]` is `1`. -/
def nordParse (links : List String) : List NordRequest :=
  links.map (fun _ => NordRequest.pageReq 1)

/-- Embedding of `NordstromSpider.parse_article`
(`crawler/spiders/nordstrom.py`): if the category indicators are empty the
body is skipped entirely; otherwise one product request is issued per product
tile (each carrying the indicator list), and, unless the tile list was empty
(`end_of_articles`), one further grid request with
`page = response.meta["page"] + 1`. -/
def nordParseArticle (r : NordGridResponse) : List NordRequest :=
  if r.categoryIndicators.isEmpty then []
  else
    if r.productTiles.isEmpty then []
    else
      r.productTiles.map (fun u => NordRequest.itemReq u r.categoryIndicators)
        ++ [NordRequest.pageReq (r.page + 1)]

/-- Abstraction of a response arriving at `NordstromSpider.parse_item`:
`response.url` (always a string in the framework) and the `article_type`
carried in `response.meta`, plus the raw selector extractions for the fields
the record assembler reads. -/
structure NordItemResponse where
  url : String
  metaArticleType : List String
  productNameMatches : List String
  brandNameMatches : List String
  priceMatches : List String
deriving Repr

/-- The `TakeFirst` output processor from `scrapy.loader.processors`: keep
the first extracted value, or leave the field absent when nothing was
extracted. -/
def takeFirst (values : List String) : Option String := values.head?

/-- The `price` output processor of `NordstromItem` (`crawler/items.py`):
`MapCompose(lambda x: x[1:])` applies `x[1:]` to every extracted value in
order (the lambda never returns `None`, so nothing is filtered out). -/
def priceOutputProcessor (values : List String) : List String :=
  values.map (fun x => x.drop 1)

/-- The fields of the assembled `NordstromItem` record that the claims
inspect.  A `TakeFirst` field is `none` when its value list was empty (the
key is then absent from the item). -/
structure NordRecord where
  article_type : List String
  product_name : Option String
  product_url : Option String
  brand_name : Option String
  price : List String
deriving Repr

/-- Embedding of `NordstromSpider.parse_item` (`crawler/spiders/nordstrom.py`)
restricted to the fields the claims inspect.  The output processors run when
`loader.load_item()` executes; an exception from `RemoveSaleHome` propagates
and no record is yielded (modelled by `Except`).  `product_url` is populated
by `loader.add_value("product_url", response.url)` with the `TakeFirst`
output processor: the singleton list `[response.url]` is always non-empty, so
the field is always present on every record actually produced. -/
def nordParseItem (r : NordItemResponse) : Except PyError NordRecord := do
  let articleType ← removeSaleHome r.metaArticleType
  .ok { article_type := articleType
        product_name := takeFirst r.productNameMatches
        product_url := takeFirst [r.url]
        brand_name := takeFirst r.brandNameMatches
        price := priceOutputProcessor r.priceMatches }

/-- Embedding of `AsosSpider.parse` (`crawler/spiders/asos.py`):

```python
for article in response.css("...").extract():
    request = scrapy.Request(article, callback=self.parse_article,
                             meta={'item': item})
    yield request
```

The callback is a generator; its body runs on the first `next()`.  With no
extracted links the loop body never runs and nothing is yielded.  With at
least one link, evaluating the keyword argument `meta` requires the
name `item`, which is bound nowhere (not a parameter, not a local, not a
module-level name), so the very first iteration raises `NameError` before
any request is yielded. -/
def asosParse (links : List String) : Except PyError (List String) :=
  match links with
  | [] => .ok []
  | _ :: _ => .error (.nameError "item")

/-- Embedding of `AsosSpider.parse_article` (`crawler/spiders/asos.py`): the
same shape as `Crawler.asosParse` — the request construction for each
extracted product link evaluates `meta={'item': item}` with `item` unbound,
so any response with at least one product link raises `NameError` before a
request is yielded. -/
def asosParseArticle (productLinks : List String) : Except PyError (List String) :=
  match productLinks with
  | [] => .ok []
  | _ :: _ => .error (.nameError "item")

/-- The product-page requests the asos tree descent can ever issue: the
category requests produced by `AsosSpider.parse` on the start page's links,
each fed (via the abstract fetch collaborator `productLinksOf`) to
`AsosSpider.parse_article`.  A callback that raises contributes no
requests. -/
def asosProductRequests (catLinks : List String)
    (productLinksOf : String → List String) : List String :=
  match asosParse catLinks with
  | .error _ => []
  | .ok articleUrls =>
      (articleUrls.map (fun u =>
        match asosParseArticle (productLinksOf u) with
        | .error _ => []
        | .ok ps => ps)).flatten

/-- Embedding of the guard at the top of `AsosSpider.parse_item`
(`crawler/spiders/asos.py`): the script element matching the
Pages/FullProduct pattern is searched with `re_first`, and

```python
if not data:
    return
```

`dataMatch` is the `re_first` result (`none` when the pattern has no
match).  Python `not data` is true for `None` and for the empty string, and
`return` ends the generator with nothing yielded and no exception.
`assembleRest` is the remainder of the function (escaping repair, JSON
parse, loader assembly), which only runs on a truthy match. -/
def asosParseItem {α : Type} (assembleRest : String → Except PyError (List α))
    (dataMatch : Option String) : Except PyError (List α) :=
  match dataMatch with
  | none => .ok []
  | some d => if d = "" then .ok [] else assembleRest d

/-- JSON values appearing in a serialized item dictionary: strings, lists of
strings (`article_type`, sizes, …) and `null` (`images`). -/
inductive JVal where
  | jstr (s : String)
  | jlist (xs : List String)
  | jnull
deriving Repr

/-- Lower-case hexadecimal digit, as used by Python's `json` `\uXXXX`
escapes. -/
def hexDigit (n : Nat) : Char :=
  let m := n % 16
  if m < 10 then Char.ofNat (48 + m) else Char.ofNat (87 + m)

/-- Four-digit hexadecimal rendering of a code unit for a `\uXXXX` escape. -/
def hex4 (n : Nat) : List Char :=
  [hexDigit (n / 4096), hexDigit (n / 256), hexDigit (n / 16), hexDigit n]

/-- `\uXXXX` escape for a character outside the printable-ASCII range, with
a surrogate pair beyond the basic multilingual plane — the behaviour of
Python's `json.dumps` with `ensure_ascii=True` (the `json.JSONEncoder`
default, which `ScrapyJSONEncoder()` inherits). -/
def uEscape (n : Nat) : List Char :=
  if n < 65536 then '\\' :: 'u' :: hex4 n
  else
    let m := n - 65536
    ('\\' :: 'u' :: hex4 (55296 + m / 1024)) ++ ('\\' :: 'u' :: hex4 (56320 + m % 1024))

/-- Per-character JSON string escaping of `json.dumps` (`ensure_ascii`
mode): `\\`, `\"`, the control shortcuts `\b \f \n \r \t`, `\uXXXX` for the
remaining characters outside `0x20`–`0x7e`, and the character itself
otherwise. -/
def jsonEscapeChar (c : Char) : List Char :=
  if c = '\\' then ['\\', '\\']
  else if c = '"' then ['\\', '"']
  else if c = Char.ofNat 8 then ['\\', 'b']
  else if c = Char.ofNat 12 then ['\\', 'f']
  else if c = '\n' then ['\\', 'n']
  else if c = Char.ofNat 13 then ['\\', 'r']
  else if c = Char.ofNat 9 then ['\\', 't']
  else if c.toNat < 32 then uEscape c.toNat
  else if 126 < c.toNat then uEscape c.toNat
  else [c]

/-- JSON rendering of a string value: escaped characters between double
quotes. -/
def encodeJStr (s : String) : List Char :=
  '"' :: (s.data.map jsonEscapeChar).flatten ++ ['"']

/-- `", "`-separated joining, the default item separator of
`json.dumps`. -/
def joinSep (sep : List Char) : List (List Char) → List Char
  | [] => []
  | [x] => x
  | x :: y :: rest => x ++ sep ++ joinSep sep (y :: rest)

/-- JSON rendering of one field value. -/
def encodeJVal : JVal → List Char
  | .jstr s => encodeJStr s
  | .jlist xs => '[' :: joinSep (", ".data) (xs.map encodeJStr) ++ [']']
  | .jnull => ['n', 'u', 'l', 'l']

/-- JSON rendering of the serialized item dictionary — the model of
`self.encoder.encode(item_dict)` in
`JsonLinesItemSplitFileExporter.export_item`, with `json.dumps` default
separators (`", "` between members, `": "` after a key). -/
def encodeItemDict (item : List (String × JVal)) : List Char :=
  Char.ofNat 123 ::
    joinSep (", ".data)
      (item.map (fun kv => encodeJStr kv.1 ++ ": ".data ++ encodeJVal kv.2))
    ++ [Char.ofNat 125]

/-- One call of `JsonLinesItemSplitFileExporter.export_item` as it affects a
partition file's content:

```python
data = self.encoder.encode(item_dict) + os.linesep
...
open(item_path, 'a+b').write(to_bytes(data, self.encoding))
```

The file is opened in append mode, so the write places the serialized line
after the existing content; `os.linesep` is the newline character on the
deployment platform. -/
def exportAppend (content : List Char) (item : List (String × JVal)) : List Char :=
  content ++ encodeItemDict item ++ ['\n']

/-- A sequence of separate `export_item` calls targeting the same partition
file, in arrival order. -/
def writeAll (content : List Char) (items : List (List (String × JVal))) : List Char :=
  items.foldl exportAppend content

/-- The lines of a file's content: maximal newline-free segments, each
closed by a newline; a trailing unterminated segment counts as a final
line. -/
def linesOf : List Char → List (List Char)
  | [] => []
  | c :: cs =>
      if c = '\n' then [] :: linesOf cs
      else
        match linesOf cs with
        | [] => [[c]]
        | l :: ls => (c :: l) :: ls

/-- The category-path cleanup exactly as the design document words it: first
test index 1 — if its lowercase form contains "sale", drop it; then test
index 0 (after the possible drop) — if its lowercase form contains "home",
drop it.  Stated with indexed access (`getD`) and index deletion
(`eraseIdx`) for comparison against the head-pattern implementation
`Crawler.removeSaleHome`; an out-of-range read defaults to the empty string
(the document presupposes at least two labels, which is the regime the
comparison theorem covers). -/
def specCategoryCleanup (values : List String) : List String :=
  let afterSale := if hasSale (values.getD 1 "") then values.eraseIdx 1 else values
  if hasHome (afterSale.getD 0 "") then afterSale.eraseIdx 0 else afterSale

/-- Modelled from the spec: the "leading currency symbol character" of the
price rule — the dollar, euro, pound and yen signs a scraped price string
could start with (`Char.ofNat 8364/163/165` are the euro, pound and yen code
points). -/
def specCurrencySymbol (c : Char) : Bool :=
  (c = '$') || (c = Char.ofNat 8364) || (c = Char.ofNat 163) || (c = Char.ofNat 165)

/-- The page counters carried by the grid-page requests in a request list,
in issue order; product-page requests carry no counter. -/
def pageRequests (reqs : List NordRequest) : List Nat :=
  reqs.filterMap (fun r =>
    match r with
    | .pageReq p => some p
    | .itemReq _ _ => none)

end Crawler

namespace Crawler

/-! ## Supporting lemmas -/

/-- On a non-empty list, the panicking last-element getter agrees with the
total one. -/
theorem getLast_bang_eq (l : List String) (h : l ≠ []) :
    l.getLast! = l.getLast h := by
  cases l with
  | nil => exact absurd rfl h
  | cons a t => rw [List.getLast!_cons, List.getLast_eq_getLastD]

/-! ## Claim theorems -/

/-- C1: on any candidate list long enough for the accesses the code performs
(at least two labels), `RemoveSaleHome` first tests index 1 and drops it when
its lowercase form contains "sale", then tests index 0 (after the possible
drop) and drops it when its lowercase form contains "home"
(`Crawler.specCategoryCleanup` is that description verbatim); moreover the
result is fully determined by the first two positions, with everything
beyond them carried over untouched — later "sale"/"home" occurrences
included. -/
theorem removeSaleHome_first_two_only (values : List String) (h : 2 ≤ values.length) :
    removeSaleHome values = .ok (specCategoryCleanup values) ∧
    removeSaleHome values =
      (removeSaleHome (values.take 2)).map (fun r => r ++ values.drop 2) := by
  match values, h with
  | v0 :: v1 :: rest, _ =>
    constructor
    · simp only [removeSaleHome, specCategoryCleanup]
      cases hs : hasSale v1 <;> cases hh : hasHome v0 <;>
        simp [hs, hh, List.eraseIdx, List.getD]
    · simp only [removeSaleHome, List.take, List.drop, Except.map]
      cases hs : hasSale v1 <;> cases hh : hasHome v0 <;> simp [hs, hh]

/-- Witness for C1 at the concrete input `["home", "sale", "shoes"]`. -/
theorem removeSaleHome_first_two_only_witness :
    removeSaleHome ["home", "sale", "shoes"] =
      .ok (specCategoryCleanup ["home", "sale", "shoes"]) ∧
    removeSaleHome ["home", "sale", "shoes"] =
      (removeSaleHome (["home", "sale", "shoes"].take 2)).map
        (fun r => r ++ ["home", "sale", "shoes"].drop 2) :=
  removeSaleHome_first_two_only ["home", "sale", "shoes"] (by decide)

/-- C2 counterexample: the document's worked examples fail on the code —
`["sale", "women", "shoes"]` is NOT mapped to `["women", "shoes"]` (the
"sale" at index 0 is only ever tested for "home", so it survives), and
`["women", "sale", "shoes"]` is NOT left unchanged (the "sale" at index 1 is
removed). -/
theorem cleanup_spec_examples_false :
    removeSaleHome ["sale", "women", "shoes"] ≠ .ok ["women", "shoes"] ∧
    removeSaleHome ["women", "sale", "shoes"] ≠ .ok ["women", "sale", "shoes"] := by
  constructor
  · intro h
    have h' := Except.ok.inj ((show removeSaleHome ["sale", "women", "shoes"] =
      .ok ["sale", "women", "shoes"] from rfl).symm.trans h)
    exact absurd h' (by decide)
  · intro h
    have h' := Except.ok.inj ((show removeSaleHome ["women", "sale", "shoes"] =
      .ok ["women", "shoes"] from rfl).symm.trans h)
    exact absurd h' (by decide)

/-- C2 amended: the cleanup leaves `["sale", "women", "shoes"]` unchanged
(a leading "sale" is never removed, index 0 is only tested for "home") and
maps `["women", "sale", "shoes"]` to `["women", "shoes"]` (the "sale" at
index 1 is removed). -/
theorem cleanup_examples_on_code :
    removeSaleHome ["sale", "women", "shoes"] = .ok ["sale", "women", "shoes"] ∧
    removeSaleHome ["women", "sale", "shoes"] = .ok ["women", "shoes"] :=
  ⟨rfl, rfl⟩

/-- C10: any input list with fewer than two elements — the empty list and
the singletons the CategoryPath invariant permits — makes
`RemoveSaleHome.__call__` read `values[1]` unconditionally and raise
`IndexError`; at least two labels is an undocumented precondition. -/
theorem removeSaleHome_short_raises (values : List String) (h : values.length < 2) :
    removeSaleHome values = .error (.indexError 1) := by
  match values, h with
  | [], _ => rfl
  | [v], _ => rfl

/-- Witness for C10 at the singleton input `["women"]`. -/
theorem removeSaleHome_short_raises_witness :
    removeSaleHome ["women"] = .error (.indexError 1) :=
  removeSaleHome_short_raises ["women"] (by decide)

/-- C3: for every non-empty `article_type` list `P` and site name `s`, the
export router resolves the partition deterministically (it is a pure
function of `s` and `P`): a singleton `P` gives file `P[0] + ".jl"` under
directory `scraped_data/s`, and a longer `P` gives directory
`scraped_data/s/P[0]/…/P[-2]` with the file named after the last label. -/
theorem exportPartition_paths (s : String) (P : List String) (h : P ≠ []) :
    exportPartition s P =
      .ok (if P.length = 1
        then (["scraped_data", s], P.head h ++ ".jl")
        else (["scraped_data", s] ++ P.dropLast, P.getLast h ++ ".jl")) := by
  match P with
  | [a] => simp [exportPartition]
  | a :: b :: t =>
    have hl : ¬((a :: b :: t).length = 1) := by simp
    simp only [exportPartition, if_neg hl]
    rw [getLast_bang_eq (a :: b :: t) h]

/-- Witness for C3 at site `"acme"` with `["a"]` and `["a", "b", "c"]`. -/
theorem exportPartition_paths_witness :
    exportPartition "acme" ["a"] = .ok (["scraped_data", "acme"], "a.jl") ∧
    exportPartition "acme" ["a", "b", "c"] =
      .ok (["scraped_data", "acme", "a", "b"], "c.jl") :=
  ⟨(exportPartition_paths "acme" ["a"] (by decide)).trans rfl,
   (exportPartition_paths "acme" ["a", "b", "c"] (by decide)).trans rfl⟩

end Crawler

namespace Crawler

/-- Page counters are untouched by a block of product requests prepended to
a request list. -/
theorem pageRequests_item_map (tiles labels : List String) (tail : List NordRequest) :
    pageRequests (tiles.map (fun u => NordRequest.itemReq u labels) ++ tail) =
      pageRequests tail := by
  induction tiles with
  | nil => rfl
  | cons a t ih => simp [pageRequests, List.filterMap_cons]

/-- C4: in the paginated (Nordstrom) traversal, every branch request issued
from the start page carries page counter 1; a grid response with non-empty
category indicators and non-empty product tiles issues exactly one further
grid request, whose counter is the current counter plus 1; and a grid
response with non-empty category indicators but no product tiles issues no
further grid request. -/
theorem nord_pagination (links : List String) (r : NordGridResponse) :
    pageRequests (nordParse links) = links.map (fun _ => 1) ∧
    (r.categoryIndicators ≠ [] → r.productTiles ≠ [] →
      pageRequests (nordParseArticle r) = [r.page + 1]) ∧
    (r.categoryIndicators ≠ [] → r.productTiles = [] →
      pageRequests (nordParseArticle r) = []) := by
  refine ⟨?_, ?_, ?_⟩
  · induction links with
    | nil => rfl
    | cons a t ih => simp [nordParse, pageRequests, List.filterMap_cons]
  · intro h1 h2
    have e1 : r.categoryIndicators.isEmpty = false := by
      simpa [List.isEmpty_iff] using h1
    have e2 : r.productTiles.isEmpty = false := by
      simpa [List.isEmpty_iff] using h2
    simp only [nordParseArticle, e1, e2, Bool.false_eq_true, if_false]
    rw [pageRequests_item_map]
    rfl
  · intro h1 h2
    have e1 : r.categoryIndicators.isEmpty = false := by
      simpa [List.isEmpty_iff] using h1
    simp [nordParseArticle, e1, h2, pageRequests]

/-- Witness for C4: one start link, a non-exhausted grid page at counter 1
(it requests counter 2) and an exhausted grid page at counter 1 (it requests
nothing). -/
theorem nord_pagination_witness :
    pageRequests (nordParse ["l"]) = [1] ∧
    pageRequests (nordParseArticle ⟨["women"], ["t"], 1⟩) = [2] ∧
    pageRequests (nordParseArticle ⟨["women"], [], 1⟩) = [] := by
  refine ⟨?_, ?_, ?_⟩
  · exact (nord_pagination ["l"] ⟨[], [], 0⟩).1
  · exact (nord_pagination [] ⟨["women"], ["t"], 1⟩).2.1 (by decide) (by decide)
  · exact (nord_pagination [] ⟨["women"], [], 1⟩).2.2 (by decide) rfl

/-- C6: a product-page response on which the Pages/FullProduct pattern has
no match makes `AsosSpider.parse_item` return at the guard: no record is
emitted (the empty yield list) and no exception is raised (`Except.ok`),
whatever the rest of the assembler would have done; the embedding is a pure
function of the page content, so the outcome is the same on every repeated
run. -/
theorem asos_missing_data_skip {α : Type}
    (assembleRest : String → Except PyError (List α)) :
    asosParseItem assembleRest none = .ok [] := rfl

/-- C7: whenever `AsosSpider.parse` (resp. `parse_article`) extracts at
least one link, building the first follow-up request evaluates the unbound
name `item` and raises `NameError`, so no follow-up request is ever yielded;
consequently the set of product-page requests the asos tree descent can
reach is empty for every start page and every category page. -/
theorem asos_unbound_item (catLinks : List String)
    (productLinksOf : String → List String) :
    (catLinks ≠ [] → asosParse catLinks = .error (.nameError "item")) ∧
    (∀ pls : List String, pls ≠ [] →
      asosParseArticle pls = .error (.nameError "item")) ∧
    asosProductRequests catLinks productLinksOf = [] := by
  refine ⟨?_, ?_, ?_⟩
  · intro h
    cases catLinks with
    | nil => exact absurd rfl h
    | cons a t => rfl
  · intro pls h
    cases pls with
    | nil => exact absurd rfl h
    | cons a t => rfl
  · cases catLinks with
    | nil => rfl
    | cons a t => rfl

/-- Witness for C7 at a one-link start page and a one-link category page. -/
theorem asos_unbound_item_witness :
    asosParse ["a"] = .error (.nameError "item") ∧
    asosParseArticle ["p"] = .error (.nameError "item") ∧
    asosProductRequests ["a"] (fun _ => ["p"]) = [] := by
  obtain ⟨h1, h2, h3⟩ := asos_unbound_item ["a"] (fun _ => ["p"])
  exact ⟨h1 (by decide), h2 ["p"] (by decide), h3⟩

/-- C8 counterexample: the price transform `x[1:]` drops the first character
unconditionally — on the matched string `"12.00"`, whose first character
`'1'` is no currency symbol, the output is `"2.00"`, so something other than
a leading currency symbol was removed and the remainder was not preserved. -/
theorem price_strip_cex :
    priceOutputProcessor ["12.00"] = ["2.00"] ∧
    specCurrencySymbol '1' = false ∧
    ("2.00" : String) ≠ "12.00" := by
  refine ⟨by decide, rfl, by decide⟩

/-- C8 amended: the price output processor applies the pure per-value
transform that removes the first character of each matched string (whatever
it is), keeping all results in extraction order; for a matched string that
does begin with a currency symbol, exactly that symbol is removed and the
remainder of the string is preserved. -/
theorem price_strip_amended :
    (∀ values : List String,
      priceOutputProcessor values = values.map (fun x => x.drop 1)) ∧
    (∀ (c : Char) (s : String), specCurrencySymbol c = true →
      (String.singleton c ++ s).drop 1 = s) := by
  refine ⟨fun values => rfl, fun c s _ => ?_⟩
  apply String.ext
  simp [String.singleton]

/-- Witness for C8 amended at the dollar-led price string `"$12.00"`. -/
theorem price_strip_amended_witness :
    priceOutputProcessor ["$12.00"] = ["$12.00"].map (fun x => x.drop 1) ∧
    (String.singleton '$' ++ "12.00").drop 1 = "12.00" :=
  ⟨price_strip_amended.1 ["$12.00"],
   price_strip_amended.2 '$' "12.00" (by decide)⟩

/-- C9: every record `NordstromSpider.parse_item` actually hands over (an
`Except.ok` outcome) carries a present `product_url`, equal to the response
URL — a record without a resolvable `product_url` is never routed onward. -/
theorem nord_product_url_present (r : NordItemResponse) (rec : NordRecord)
    (h : nordParseItem r = .ok rec) : rec.product_url = some r.url := by
  unfold nordParseItem at h
  cases hrs : removeSaleHome r.metaArticleType with
  | error e =>
    rw [hrs] at h
    simp [Bind.bind, Except.bind] at h
  | ok v =>
    rw [hrs] at h
    simp only [Bind.bind, Except.bind] at h
    injection h with h'
    rw [← h']
    rfl

/-- Witness for C9 at a concrete response with URL `"http://u"`. -/
theorem nord_product_url_present_witness :
    (NordRecord.mk ["women", "shoes"] none (some "http://u") none []).product_url =
      some "http://u" :=
  nord_product_url_present ⟨"http://u", ["women", "shoes"], [], [], []⟩
    (NordRecord.mk ["women", "shoes"] none (some "http://u") none []) rfl

end Crawler

namespace Crawler

/-- Hexadecimal digits are never the newline character. -/
theorem hexDigit_ne_nl (n : Nat) : hexDigit n ≠ '\n' := by
  unfold hexDigit
  have h : n % 16 < 16 := Nat.mod_lt _ (by norm_num)
  set m := n % 16 with hm
  interval_cases m <;> decide

/-- A four-digit hexadecimal rendering contains no newline. -/
theorem nl_not_mem_hex4 (n : Nat) : '\n' ∉ hex4 n := by
  intro hmem
  simp only [hex4, List.mem_cons, List.not_mem_nil, or_false] at hmem
  rcases hmem with h | h | h | h <;> exact hexDigit_ne_nl _ h.symm

/-- A `\uXXXX` escape contains no newline. -/
theorem nl_not_mem_uEscape (n : Nat) : '\n' ∉ uEscape n := by
  intro hmem
  unfold uEscape at hmem
  split at hmem
  · simp only [List.mem_cons] at hmem
    rcases hmem with h | h | h
    · exact absurd h (by decide)
    · exact absurd h (by decide)
    · exact nl_not_mem_hex4 _ h
  · simp only [List.mem_append, List.mem_cons] at hmem
    rcases hmem with (h | h | h) | (h | h | h)
    · exact absurd h (by decide)
    · exact absurd h (by decide)
    · exact nl_not_mem_hex4 _ h
    · exact absurd h (by decide)
    · exact absurd h (by decide)
    · exact nl_not_mem_hex4 _ h

/-- The JSON escaping of a single character contains no newline: a literal
newline is rendered as backslash-n, and every other character either escapes
to backslash sequences, hexadecimal escapes, or stands for itself and is not
a newline. -/
theorem nl_not_mem_jsonEscapeChar (c : Char) : '\n' ∉ jsonEscapeChar c := by
  unfold jsonEscapeChar
  split
  · decide
  split
  · decide
  split
  · decide
  split
  · decide
  split
  · decide
  split
  · decide
  split
  · decide
  split
  · exact nl_not_mem_uEscape _
  split
  · exact nl_not_mem_uEscape _
  · rename_i h1 h2 h3 h4 h5 h6 h7 h8 h9
    intro hmem
    simp only [List.mem_singleton] at hmem
    exact h5 hmem.symm

/-- The JSON rendering of a string contains no newline. -/
theorem nl_not_mem_encodeJStr (s : String) : '\n' ∉ encodeJStr s := by
  intro hmem
  unfold encodeJStr at hmem
  rcases List.mem_cons.mp hmem with h | h
  · exact absurd h (by decide)
  rcases List.mem_append.mp h with h | h
  · rcases List.mem_flatten.mp h with ⟨l, hl, hml⟩
    rcases List.mem_map.mp hl with ⟨c, _, rfl⟩
    exact nl_not_mem_jsonEscapeChar c hml
  · exact absurd h (by decide)

/-- Joining newline-free segments with a newline-free separator yields a
newline-free list. -/
theorem nl_not_mem_joinSep (sep : List Char) (hsep : '\n' ∉ sep) :
    ∀ ls : List (List Char), (∀ l ∈ ls, '\n' ∉ l) → '\n' ∉ joinSep sep ls := by
  intro ls
  induction ls with
  | nil =>
    intro _
    simp [joinSep]
  | cons x t ih =>
    intro h
    cases t with
    | nil => simpa [joinSep] using h x (by simp)
    | cons y rest =>
      intro hmem
      simp only [joinSep, List.mem_append, or_assoc] at hmem
      rcases hmem with hx | hs | hrest
      · exact h x (by simp) hx
      · exact hsep hs
      · exact ih (fun l hl => h l (List.mem_cons_of_mem _ hl)) hrest

/-- The JSON rendering of a field value contains no newline. -/
theorem nl_not_mem_encodeJVal (v : JVal) : '\n' ∉ encodeJVal v := by
  cases v with
  | jstr s => exact nl_not_mem_encodeJStr s
  | jlist xs =>
    intro hmem
    unfold encodeJVal at hmem
    rcases List.mem_cons.mp hmem with h | h
    · exact absurd h (by decide)
    rcases List.mem_append.mp h with h | h
    · refine nl_not_mem_joinSep _ (by decide) _ ?_ h
      intro l hl
      rcases List.mem_map.mp hl with ⟨s, _, rfl⟩
      exact nl_not_mem_encodeJStr s
    · exact absurd h (by decide)
  | jnull =>
    intro hmem
    exact absurd hmem (by decide)

/-- One serialized record contains no newline: the whole `json.dumps` output
is a single line. -/
theorem nl_not_mem_encodeItemDict (item : List (String × JVal)) :
    '\n' ∉ encodeItemDict item := by
  intro hmem
  unfold encodeItemDict at hmem
  rcases List.mem_cons.mp hmem with h | h
  · exact absurd h (by decide)
  rcases List.mem_append.mp h with h | h
  · refine nl_not_mem_joinSep _ (by decide) _ ?_ h
    intro l hl
    rcases List.mem_map.mp hl with ⟨kv, _, rfl⟩
    intro hm
    simp only [List.mem_append, or_assoc] at hm
    rcases hm with hk | hc | hv
    · exact nl_not_mem_encodeJStr _ hk
    · exact absurd hc (by decide)
    · exact nl_not_mem_encodeJVal _ hv
  · exact absurd h (by decide)

/-- Unfolded form of a run of `export_item` calls: the existing content
followed by one serialized, newline-terminated line per record, in arrival
order. -/
theorem writeAll_eq (content : List Char) (items : List (List (String × JVal))) :
    writeAll content items =
      content ++ (items.map (fun i => encodeItemDict i ++ ['\n'])).flatten := by
  induction items generalizing content with
  | nil => simp [writeAll]
  | cons i t ih =>
    show writeAll (exportAppend content i) t = _
    rw [ih]
    simp [exportAppend, List.append_assoc]

/-- Prepending one newline-terminated, newline-free segment adds exactly one
line in front. -/
theorem linesOf_line_append (l rest : List Char) (h : '\n' ∉ l) :
    linesOf (l ++ '\n' :: rest) = l :: linesOf rest := by
  induction l with
  | nil => simp [linesOf]
  | cons c t ih =>
    have hc : ¬(c = '\n') := fun hcc => h (hcc ▸ List.mem_cons_self _ _)
    have ht : '\n' ∉ t := fun hm => h (List.mem_cons_of_mem _ hm)
    rw [List.cons_append]
    simp only [linesOf, if_neg hc, ih ht]

/-- The partition file assembled from scratch by a run of `export_item`
calls splits into exactly one line per record, in arrival order. -/
theorem linesOf_writeAll (items : List (List (String × JVal))) :
    linesOf (writeAll [] items) = items.map encodeItemDict := by
  rw [writeAll_eq]
  rw [List.nil_append]
  induction items with
  | nil => rfl
  | cons i t ih =>
    simp only [List.map_cons, List.flatten_cons, List.append_assoc,
      List.singleton_append]
    rw [linesOf_line_append _ _ (nl_not_mem_encodeItemDict i), ih]

/-- C5: the exporter only ever appends — existing content is a prefix of the
content after any run of `export_item` calls, so a non-empty partition file
never loses prior lines; a partition written from empty by N calls holds
exactly the N serialized records as its lines, one line per record, in
arrival order (distinct calls are therefore newline-separated); and separate
batches of write calls compose into the concatenated batch. -/
theorem export_append_only (content : List Char)
    (items batch : List (List (String × JVal))) :
    content <+: writeAll content items ∧
    linesOf (writeAll [] items) = items.map encodeItemDict ∧
    writeAll (writeAll content items) batch = writeAll content (items ++ batch) := by
  refine ⟨⟨(items.map (fun i => encodeItemDict i ++ ['\n'])).flatten,
    (writeAll_eq content items).symm⟩, linesOf_writeAll items, ?_⟩
  simp [writeAll, List.foldl_append]

end Crawler
